import Mathlib

/-!
Shallow embedding of the recursive-board game engine in `src/game/logic.ts`
and its data model in `src/game/types.ts` (a three-level "ultimate
tic-tac-toe" variant).

Conventions of the embedding:
* TS `null` is `Option.none`; the X/O union is `Player`; the TS union
  `Winner = Player | DRAW | null` is `Option Owner` with
  `Owner = X | O | DRAW`.
* JS arrays become `List`s.  Reading an array at an out-of-range index
  yields `undefined` in JS, which we model as `List.get? = none`.
  Accessing a property (`.grid`, `.owner`) of such an `undefined` value
  throws a `TypeError` at run time; functions in which this can happen
  return `Option` (with `none` for the crash), and `applyMove` returns
  `Except JsError GameState` distinguishing the thrown
  `Error("Invalid move")` (`JsError.invalidMove`) from a `TypeError`
  crash (`JsError.typeError`).
* The `gameName` field declared on the TS `GameState` type is never
  constructed nor read by `logic.ts` (its `createInitialGameState`
  omits it), so it is not part of the embedded state.
-/

inductive Player where
  | X
  | O
deriving DecidableEq, Repr

/-- The non-null values of the TS `Winner` union. -/
inductive Owner where
  | X
  | O
  | DRAW
deriving DecidableEq, Repr

/-- TS `Winner = Player | DRAW | null`. -/
abbrev Winner := Option Owner

/-- TS `CellValue = Player | null`. -/
abbrev CellValue := Option Player

def Player.toOwner : Player → Owner
  | .X => Owner.X
  | .O => Owner.O

/-- TS `BoardState<T> = { level, owner, grid }` from `types.ts`. -/
structure BoardState (T : Type) where
  level : Nat
  owner : Winner
  grid : List T
deriving DecidableEq

abbrev SmallBoard := BoardState CellValue
abbrev MediumBoard := BoardState SmallBoard
abbrev LargeBoard := BoardState MediumBoard

/-- TS `GameState` from `types.ts` (without the never-used `gameName`). -/
structure GameState where
  board : LargeBoard
  currentPlayer : Player
  activeBoardPath : Option (Nat × Nat)
  winner : Winner
deriving DecidableEq

/-- TS `Move` from `types.ts`. -/
structure Move where
  path : Nat × Nat × Nat
  player : Player
deriving DecidableEq

/-- The two run-time failures `applyMove` can exhibit: the explicitly
thrown `Error("Invalid move")`, and a `TypeError` from accessing a
property of `undefined` after an out-of-range array read. -/
inductive JsError where
  | invalidMove
  | typeError
deriving DecidableEq, Repr

instance {ε α : Type} [DecidableEq ε] [DecidableEq α] : DecidableEq (Except ε α)
  | .error e, .error e' => decidable_of_iff (e = e') (by simp)
  | .error _, .ok _ => isFalse (by simp)
  | .ok _, .error _ => isFalse (by simp)
  | .ok a, .ok a' => decidable_of_iff (a = a') (by simp)

/-- Constant `WIN_PATTERNS` from `logic.ts`: 3 rows, 3 columns, 2 diagonals. -/
def WIN_PATTERNS : List (Nat × Nat × Nat) :=
  [(0, 1, 2), (3, 4, 5), (6, 7, 8),
   (0, 3, 6), (1, 4, 7), (2, 5, 8),
   (0, 4, 8), (2, 4, 6)]

/-- The owner projection `checkWinner` applies to `grid[i]`.  The TS
code dispatches on whether `typeof grid[i]` is a string; at the cell call
site the string branch returns the cell itself (X/O) and the other
branch returns `getOwner(null) = null`, and at the board call sites the
string branch never fires — so at every call site the dispatch is
exactly `getOwner`.  An out-of-range read gives `undefined`, which is
falsy like `null` in every comparison `checkWinner` performs, so it is
modelled as `none`. -/
def ownerAt {T : Type} (grid : List T) (getOwner : T → Winner) (i : Nat) : Winner :=
  match grid.get? i with
  | some t => getOwner t
  | none => none

/-- One iteration of the `for (const pattern of WIN_PATTERNS)` loop in
`checkWinner`: `some o` when `ownerA` is truthy, not `DRAW`, and equal
to `ownerB` and `ownerC`. -/
def patternHit {T : Type} (grid : List T) (getOwner : T → Winner)
    (p : Nat × Nat × Nat) : Winner :=
  match ownerAt grid getOwner p.1 with
  | some o =>
      if o ≠ Owner.DRAW ∧ ownerAt grid getOwner p.2.1 = some o ∧
          ownerAt grid getOwner p.2.2 = some o then
        some o
      else
        none
  | none => none

/-- Function `checkWinner` from `logic.ts`: first winning pattern in the fixed
enumeration order, else `DRAW` when every child has a non-null owner,
else `null`. -/
def checkWinner {T : Type} (grid : List T) (getOwner : T → Winner) : Winner :=
  match WIN_PATTERNS.findSome? (patternHit grid getOwner) with
  | some o => some o
  | none =>
      if grid.all (fun t => getOwner t ≠ none) then some Owner.DRAW
      else none

/-- The cell-level owner projection `(cell) => cell as Winner`. -/
def cellOwner : CellValue → Winner
  | some p => some p.toOwner
  | none => none

/-- Function `createBoard` from `logic.ts`. -/
def createBoard {T : Type} (level : Nat) (initialContent : Nat → T) : BoardState T :=
  { level := level, owner := none, grid := (List.range 9).map initialContent }

/-- Function `createInitialGameState` from `logic.ts`. -/
def createInitialGameState : GameState :=
  { board := createBoard 3 (fun _ => createBoard 2 (fun _ => createBoard 1 (fun _ => none)))
    currentPlayer := Player.X
    activeBoardPath := none
    winner := none }

/-- Function `updateSmallBoard` from `logic.ts`.  When `index` is out of range,
`newGrid[index]` is `undefined ≠ null` and the board is returned
unchanged, so the function is total. -/
def updateSmallBoard (board : SmallBoard) (index : Nat) (player : Player) : SmallBoard :=
  if board.grid.get? index ≠ some none then board
  else
    let newGrid := board.grid.set index (some player)
    let newOwner :=
      match board.owner with
      | some w => some w
      | none => checkWinner newGrid cellOwner
    { board with grid := newGrid, owner := newOwner }

/-- Function `updateMediumBoard` from `logic.ts`; `none` models the `TypeError`
thrown when `l2_idx` is out of range (`updateSmallBoard` spreads
`undefined.grid`). -/
def updateMediumBoard (board : MediumBoard) (l2_idx l1_idx : Nat) (player : Player) :
    Option MediumBoard :=
  match board.grid.get? l2_idx with
  | none => none
  | some subBoard =>
      let newSubBoard := updateSmallBoard subBoard l1_idx player
      let newGrid := board.grid.set l2_idx newSubBoard
      let newOwner :=
        match board.owner with
        | some w => some w
        | none => checkWinner newGrid (fun b => b.owner)
      some { board with grid := newGrid, owner := newOwner }

/-- Function `updateLargeBoard` from `logic.ts`; `none` models a `TypeError` from
an out-of-range `l3_idx` (or one propagated from `updateMediumBoard`). -/
def updateLargeBoard (board : LargeBoard) (l3_idx l2_idx l1_idx : Nat) (player : Player) :
    Option LargeBoard :=
  match board.grid.get? l3_idx with
  | none => none
  | some subBoard =>
      match updateMediumBoard subBoard l2_idx l1_idx player with
      | none => none
      | some newSubBoard =>
          let newGrid := board.grid.set l3_idx newSubBoard
          let newOwner :=
            match board.owner with
            | some w => some w
            | none => checkWinner newGrid (fun b => b.owner)
          some { board with grid := newGrid, owner := newOwner }

/-- Function `isValidMove` from `logic.ts`.  `none` models the `TypeError` thrown
when `large.grid[l3]` or `medium.grid[l2]` is `undefined` and its
`.grid` is accessed; an out-of-range `l1` merely reads
`cell = undefined`, and `undefined !== null`, so it returns `false`. -/
def isValidMove (gameState : GameState) (move : Move) : Option Bool :=
  if gameState.winner ≠ none then some false
  else if move.player ≠ gameState.currentPlayer then some false
  else
    let l3 := move.path.1
    let l2 := move.path.2.1
    let l1 := move.path.2.2
    let constraintRejected : Bool :=
      match gameState.activeBoardPath with
      | some (reqL3, reqL2) => l3 ≠ reqL3 || l2 ≠ reqL2
      | none => false
    if constraintRejected then some false
    else
      match gameState.board.grid.get? l3 with
      | none => none
      | some medium =>
          match medium.grid.get? l2 with
          | none => none
          | some small =>
              let cell := small.grid.get? l1
              if gameState.board.owner ≠ none then some false
              else if cell ≠ some none then some false
              else some true

/-- Function `applyMove` from `logic.ts`. -/
def applyMove (gameState : GameState) (move : Move) : Except JsError GameState :=
  match isValidMove gameState move with
  | none => .error JsError.typeError
  | some false => .error JsError.invalidMove
  | some true =>
      let l3 := move.path.1
      let l2 := move.path.2.1
      let l1 := move.path.2.2
      let nextPlayer : Player :=
        match gameState.currentPlayer with
        | .X => Player.O
        | .O => Player.X
      match updateLargeBoard gameState.board l3 l2 l1 gameState.currentPlayer with
      | none => .error JsError.typeError
      | some newBoard =>
          match newBoard.grid.get? l2 with
          | none => .error JsError.typeError
          | some targetMedium =>
              match targetMedium.grid.get? l1 with
              | none => .error JsError.typeError
              | some targetSmall =>
                  let isTargetFull := targetSmall.grid.all (fun c => c ≠ none)
                  let nextActivePath : Option (Nat × Nat) :=
                    if isTargetFull then none else some (l2, l1)
                  .ok { board := newBoard
                        currentPlayer := nextPlayer
                        activeBoardPath := nextActivePath
                        winner := newBoard.owner }

/-! Spec-side helper definitions used to state the claims. -/

/-- Predicate `isBoardFull` named by the spec, for a small board: every one of its cells
is occupied (`targetSmall.grid.every(c => c !== null)` in `applyMove`). -/
def isBoardFull (board : SmallBoard) : Bool :=
  board.grid.all (fun c => c ≠ none)

/-- The small board addressed by root index `a`, sub-index `b`. -/
def smallAt (board : LargeBoard) (a b : Nat) : Option SmallBoard :=
  (board.grid.get? a).bind (fun m => m.grid.get? b)

/-- The leaf cell at full address `(l3, l2, l1)`. -/
def cellAt (s : GameState) (l3 l2 l1 : Nat) : Option CellValue :=
  (smallAt s.board l3 l2).bind (fun sb => sb.grid.get? l1)

/-- A medium board is completely full when every one of its 81 leaf
cells (9 small boards of 9 cells each, in a well-formed state) is
occupied. -/
def mediumFull (m : MediumBoard) : Bool :=
  m.grid.all (fun sb => isBoardFull sb)

/-- Well-formedness of the board tree: every grid holds exactly 9
entries, as built by `createBoard`. -/
abbrev WFBoard (b : LargeBoard) : Prop :=
  b.grid.length = 9 ∧
    ∀ m ∈ b.grid, m.grid.length = 9 ∧ ∀ sb ∈ m.grid, sb.grid.length = 9

abbrev WFState (s : GameState) : Prop :=
  WFBoard s.board

/-- Iterated `applyMove` over a list of moves, stopping at the first
failure. -/
def applyMoves (s : GameState) : List Move → Except JsError GameState
  | [] => .ok s
  | m :: ms =>
      match applyMove s m with
      | .ok s' => applyMoves s' ms
      | .error e => .error e

/-- States reachable from the initial state by accepted moves. -/
inductive Reachable : GameState → Prop where
  | init : Reachable createInitialGameState
  | step (S : GameState) (M : Move) (S' : GameState) :
      Reachable S → applyMove S M = .ok S' → Reachable S'

/-- Spec-side reading of a winning pattern: the three positions of `p`
all carry the same decided, non-DRAW owner `o`. -/
abbrev matchesPattern {T : Type} (grid : List T) (getOwner : T → Winner)
    (p : Nat × Nat × Nat) (o : Owner) : Prop :=
  o ≠ Owner.DRAW ∧ ownerAt grid getOwner p.1 = some o ∧
    ownerAt grid getOwner p.2.1 = some o ∧ ownerAt grid getOwner p.2.2 = some o

/-- Spec-side reading of condition 3 of `isValidMove`: the move honours
the active-board constraint. -/
def constraintOk (s : GameState) (m : Move) : Prop :=
  match s.activeBoardPath with
  | some (reqL3, reqL2) => m.path.1 = reqL3 ∧ m.path.2.1 = reqL2
  | none => True

/-! Basic lemmas about the update functions. -/

theorem updateSmallBoard_owner_preserved (sb : SmallBoard) (i : Nat) (p : Player) (o : Owner)
    (h : sb.owner = some o) : (updateSmallBoard sb i p).owner = some o := by
  unfold updateSmallBoard
  split
  · exact h
  · simp [h]

theorem updateSmallBoard_length (sb : SmallBoard) (i : Nat) (p : Player) :
    (updateSmallBoard sb i p).grid.length = sb.grid.length := by
  unfold updateSmallBoard
  split
  · rfl
  · simp

theorem updateSmallBoard_cell_preserved (sb : SmallBoard) (i j : Nat) (p q : Player)
    (h : sb.grid.get? j = some (some q)) :
    (updateSmallBoard sb i p).grid.get? j = some (some q) := by
  unfold updateSmallBoard
  split
  · exact h
  · rename_i hcell
    rw [not_not] at hcell
    by_cases hij : i = j
    · subst hij
      rw [hcell] at h
      exact absurd h (by simp)
    · dsimp
      rw [List.get?_set, if_neg hij]
      exact h

theorem updateMediumBoard_inv (mb : MediumBoard) (a b : Nat) (p : Player) (mb' : MediumBoard)
    (h : updateMediumBoard mb a b p = some mb') :
    ∃ sb, mb.grid.get? a = some sb ∧
      mb'.grid = mb.grid.set a (updateSmallBoard sb b p) ∧
      mb'.owner = (match mb.owner with
        | some w => some w
        | none => checkWinner (mb.grid.set a (updateSmallBoard sb b p)) (fun x => x.owner)) ∧
      mb'.level = mb.level := by
  unfold updateMediumBoard at h
  cases hget : mb.grid.get? a with
  | none => rw [hget] at h; cases h
  | some sb =>
      rw [hget] at h
      dsimp at h
      injection h with h
      exact ⟨sb, rfl, by rw [← h], by rw [← h], by rw [← h]⟩

theorem updateLargeBoard_inv (lb : LargeBoard) (l3 l2 l1 : Nat) (p : Player) (lb' : LargeBoard)
    (h : updateLargeBoard lb l3 l2 l1 p = some lb') :
    ∃ mb mb', lb.grid.get? l3 = some mb ∧
      updateMediumBoard mb l2 l1 p = some mb' ∧
      lb'.grid = lb.grid.set l3 mb' ∧
      lb'.owner = (match lb.owner with
        | some w => some w
        | none => checkWinner (lb.grid.set l3 mb') (fun x => x.owner)) ∧
      lb'.level = lb.level := by
  unfold updateLargeBoard at h
  cases hget : lb.grid.get? l3 with
  | none => rw [hget] at h; cases h
  | some mb =>
      rw [hget] at h
      dsimp at h
      cases hmed : updateMediumBoard mb l2 l1 p with
      | none => rw [hmed] at h; cases h
      | some mb2 =>
          rw [hmed] at h
          dsimp at h
          injection h with h
          exact ⟨mb, mb2, rfl, hmed, by rw [← h], by rw [← h], by rw [← h]⟩

/-- Concrete first move used by witnesses: X plays path (0, 0, 4). -/
def moveA : Move :=
  { path := (0, 0, 4), player := Player.X }

/-- The state after the first move; equals the `.ok` payload of
`applyMove createInitialGameState moveA`. -/
def afterFirstMove : GameState :=
  match applyMove createInitialGameState moveA with
  | .ok s => s
  | .error _ => createInitialGameState

/-- Inversion of a successful `applyMove`: the move was valid, the board
was rebuilt by `updateLargeBoard`, the target small board at
`(l2, l1)` of the new board exists, and the resulting state is exactly
the record `applyMove` constructs. -/
theorem applyMove_ok_inv (S : GameState) (M : Move) (S' : GameState)
    (h : applyMove S M = .ok S') :
    isValidMove S M = some true ∧
    ∃ nb tm ts,
      updateLargeBoard S.board M.path.1 M.path.2.1 M.path.2.2 S.currentPlayer = some nb ∧
      nb.grid.get? M.path.2.1 = some tm ∧
      tm.grid.get? M.path.2.2 = some ts ∧
      S' = { board := nb
             currentPlayer := match S.currentPlayer with | .X => Player.O | .O => Player.X
             activeBoardPath := if isBoardFull ts then none else some (M.path.2.1, M.path.2.2)
             winner := nb.owner } := by
  unfold applyMove at h
  cases hval : isValidMove S M with
  | none => rw [hval] at h; cases h
  | some b =>
      cases b with
      | false => rw [hval] at h; cases h
      | true =>
          rw [hval] at h
          dsimp at h
          refine ⟨rfl, ?_⟩
          cases hup : updateLargeBoard S.board M.path.1 M.path.2.1 M.path.2.2 S.currentPlayer with
          | none => rw [hup] at h; cases h
          | some nb =>
              rw [hup] at h
              dsimp at h
              cases htm : nb.grid.get? M.path.2.1 with
              | none => rw [htm] at h; cases h
              | some tm =>
                  rw [htm] at h
                  dsimp at h
                  cases hts : tm.grid.get? M.path.2.2 with
                  | none => rw [hts] at h; cases h
                  | some ts =>
                      rw [hts] at h
                      dsimp at h
                      injection h with h
                      exact ⟨nb, tm, ts, rfl, htm, hts, h.symm⟩

/-! Claim theorems. -/

/-- C8: for every state `S` and every move `M` accepted by `applyMove`,
the resulting state's `currentPlayer` differs from `S.currentPlayer` —
an accepted move always flips the turn. -/
theorem C8_turn_alternation (S : GameState) (M : Move) (S' : GameState)
    (h : applyMove S M = .ok S') : S'.currentPlayer ≠ S.currentPlayer := by
  obtain ⟨-, nb, tm, ts, -, -, -, hS⟩ := applyMove_ok_inv S M S' h
  subst hS
  cases hcp : S.currentPlayer <;> simp [hcp]

theorem C8_turn_alternation_witness :
    applyMove createInitialGameState moveA = .ok afterFirstMove ∧
    afterFirstMove.currentPlayer ≠ createInitialGameState.currentPlayer :=
  ⟨by decide, C8_turn_alternation createInitialGameState moveA afterFirstMove (by decide)⟩

/-- C1: after a valid move with path `(l3, l2, l1)`, the new
`activeBoardPath` is `(l2, l1)` — the small board at root index `l2`,
sub-index `l1` — unless that target small board is completely full
after the move, in which case it is `none` (free play). -/
theorem C1_next_constraint (S : GameState) (M : Move) (S' : GameState)
    (h : applyMove S M = .ok S') :
    (smallAt S'.board M.path.2.1 M.path.2.2).isSome = true ∧
    ∀ ts, smallAt S'.board M.path.2.1 M.path.2.2 = some ts →
      S'.activeBoardPath = if isBoardFull ts then none else some (M.path.2.1, M.path.2.2) := by
  obtain ⟨-, nb, tm, ts, -, htm, hts, hS⟩ := applyMove_ok_inv S M S' h
  subst hS
  have hsm : smallAt nb M.path.2.1 M.path.2.2 = some ts := by
    unfold smallAt
    rw [htm]
    exact hts
  refine ⟨by simp [hsm], ?_⟩
  intro ts' h'
  have h'' : some ts = some ts' := by rw [← hsm, h']
  injection h'' with h''
  subst h''
  rfl

theorem C1_next_constraint_witness :
    smallAt afterFirstMove.board 0 4 = some (createBoard 1 (fun _ => none)) ∧
    afterFirstMove.activeBoardPath =
      (if isBoardFull (createBoard 1 (fun _ => none)) then none else some (0, 4)) := by
  have h := C1_next_constraint createInitialGameState moveA afterFirstMove (by decide)
  exact ⟨by decide, h.2 (createBoard 1 (fun _ => none)) (by decide)⟩

/-- C7: `applyMove` throws the `Error("Invalid move")` exactly when
`isValidMove` returns `false` (a `TypeError` crash inside the
validation is a different failure and `isValidMove` returns no boolean
there).  The embedding is of pure code — the TS functions build new
objects and never write to `gameState` — so a rejected move leaves the
input state untouched by construction. -/
theorem C7_invalid_move_error (S : GameState) (M : Move) :
    applyMove S M = .error JsError.invalidMove ↔ isValidMove S M = some false := by
  unfold applyMove
  cases hval : isValidMove S M with
  | none => simp
  | some b =>
      cases b with
      | false => simp
      | true =>
          dsimp
          constructor
          · intro h
            split at h
            · cases h
            · split at h
              · cases h
              · split at h
                · cases h
                · split at h
                  · cases h
                  · cases h
          · intro h
            cases h

/-- Number of leaf cells in the board tree of a state. -/
def leafCellCount (s : GameState) : Nat :=
  (s.board.grid.map (fun m => (m.grid.map (fun sb => sb.grid.length)).sum)).sum

/-- C9 counterexample to the leaf-cell count: the board built by
`createInitialGameState` is three levels deep and has 9 x 9 x 9 = 729
leaf cells, not 81 as the claim states. -/
theorem C9_counterexample :
    leafCellCount createInitialGameState = 729 ∧ (729 : Nat) ≠ 81 := by
  constructor
  · decide
  · decide

/-- C9 (amended): `createInitialGameState` returns a state with
`currentPlayer = X`, no active constraint, no winner, every board node
at every level with `owner = none`, and every one of the 729 leaf cells
empty. -/
theorem C9_initial_state :
    createInitialGameState.currentPlayer = Player.X ∧
    createInitialGameState.activeBoardPath = none ∧
    createInitialGameState.winner = none ∧
    createInitialGameState.board.owner = none ∧
    leafCellCount createInitialGameState = 729 ∧
    (∀ m ∈ createInitialGameState.board.grid, m.owner = none ∧
      ∀ sb ∈ m.grid, sb.owner = none ∧ ∀ c ∈ sb.grid, c = none) := by
  refine ⟨rfl, rfl, rfl, rfl, by decide, ?_⟩
  decide

def emptySmallBoard : SmallBoard := createBoard 1 (fun _ => none)

def emptyMediumBoard : MediumBoard := createBoard 2 (fun _ => emptySmallBoard)

/-- A state whose `winner` field is `none` but whose root board carries
an owner: all four conditions listed by the claim hold for the move
(0,0,0) by X, yet `isValidMove` returns `false` because of its extra
`if (large.owner) return false` check. -/
def ownerInconsistentState : GameState :=
  { board := { level := 3, owner := some Owner.X, grid := List.replicate 9 emptyMediumBoard }
    currentPlayer := Player.X
    activeBoardPath := none
    winner := none }

/-- C2 counterexample: in `ownerInconsistentState` the claim's four
conditions hold for the move (0,0,0) by X — `winner` is `none`, the
player matches, there is no active constraint, and the target cell is
empty — but `isValidMove` still returns `false` (the code also requires
`large.owner` to be unset). -/
theorem C2_counterexample :
    ownerInconsistentState.winner = none ∧
    ({ path := (0, 0, 0), player := Player.X } : Move).player =
      ownerInconsistentState.currentPlayer ∧
    ownerInconsistentState.activeBoardPath = none ∧
    cellAt ownerInconsistentState 0 0 0 = some none ∧
    isValidMove ownerInconsistentState { path := (0, 0, 0), player := Player.X } = some false := by
  refine ⟨rfl, rfl, rfl, by decide, by decide⟩

/-- C2 (amended): `isValidMove` returns `true` exactly when `winner` is
`none`, the mover is the current player, the active-board constraint
(if any) is honoured, the root board's `owner` is `none` (the code's
extra safety check, which the claim omitted), and the addressed cell
exists and is empty. -/
theorem C2_isValidMove_characterization (S : GameState) (M : Move) :
    isValidMove S M = some true ↔
      S.winner = none ∧ M.player = S.currentPlayer ∧ constraintOk S M ∧
      S.board.owner = none ∧ cellAt S M.path.1 M.path.2.1 M.path.2.2 = some none := by
  unfold isValidMove constraintOk cellAt smallAt
  by_cases hw : S.winner = none
  · by_cases hp : M.player = S.currentPlayer
    · rcases hc : S.activeBoardPath with - | ⟨a, b⟩
      · cases hg3 : S.board.grid[M.path.1]? with
        | none => simp [hw, hp, hg3]
        | some med =>
            cases hg2 : med.grid[M.path.2.1]? with
            | none => simp [hw, hp, hg3, hg2]
            | some sm =>
                by_cases ho : S.board.owner = none
                · by_cases hcell : sm.grid[M.path.2.2]? = some none
                  · simp [hw, hp, hg3, hg2, ho, hcell]
                  · simp [hw, hp, hg3, hg2, ho, hcell]
                · simp [hw, hp, hg3, hg2, ho]
      · by_cases hab : M.path.1 = a ∧ M.path.2.1 = b
        · obtain ⟨ha, hb⟩ := hab
          subst ha
          subst hb
          cases hg3 : S.board.grid[M.path.1]? with
          | none => simp [hw, hp, hg3]
          | some med =>
              cases hg2 : med.grid[M.path.2.1]? with
              | none => simp [hw, hp, hg3, hg2]
              | some sm =>
                  by_cases ho : S.board.owner = none
                  · by_cases hcell : sm.grid[M.path.2.2]? = some none
                    · simp [hw, hp, hg3, hg2, ho, hcell]
                    · simp [hw, hp, hg3, hg2, ho, hcell]
                  · simp [hw, hp, hg3, hg2, ho]
        · simp only [not_and] at hab
          by_cases ha : M.path.1 = a
          · have hb : M.path.2.1 ≠ b := hab ha
            subst ha
            simp [hw, hp, hb]
          · simp [hw, hp, ha]
    · simp [hw, hp]
  · simp [hw]

/-! Grid-slot characterizations of the update functions, used for the
preservation claims C4 and C5. -/

theorem updateMediumBoard_get?_ne (mb : MediumBoard) (a b : Nat) (p : Player)
    (mb' : MediumBoard) (h : updateMediumBoard mb a b p = some mb') (j : Nat) (hj : a ≠ j) :
    mb'.grid.get? j = mb.grid.get? j := by
  obtain ⟨sb, -, hgrid, -, -⟩ := updateMediumBoard_inv mb a b p mb' h
  rw [hgrid, List.get?_set, if_neg hj]

theorem updateMediumBoard_get?_eq (mb : MediumBoard) (a b : Nat) (p : Player)
    (mb' : MediumBoard) (h : updateMediumBoard mb a b p = some mb') :
    ∃ sb, mb.grid.get? a = some sb ∧ mb'.grid.get? a = some (updateSmallBoard sb b p) := by
  obtain ⟨sb, hsb, hgrid, -, -⟩ := updateMediumBoard_inv mb a b p mb' h
  refine ⟨sb, hsb, ?_⟩
  rw [hgrid, List.get?_set, if_pos rfl, hsb]
  rfl

theorem updateMediumBoard_owner_preserved (mb : MediumBoard) (a b : Nat) (p : Player)
    (mb' : MediumBoard) (h : updateMediumBoard mb a b p = some mb') (o : Owner)
    (ho : mb.owner = some o) : mb'.owner = some o := by
  obtain ⟨sb, -, -, hown, -⟩ := updateMediumBoard_inv mb a b p mb' h
  rw [hown, ho]

theorem updateLargeBoard_get?_ne (lb : LargeBoard) (l3 l2 l1 : Nat) (p : Player)
    (lb' : LargeBoard) (h : updateLargeBoard lb l3 l2 l1 p = some lb') (j : Nat) (hj : l3 ≠ j) :
    lb'.grid.get? j = lb.grid.get? j := by
  obtain ⟨mb, mb', -, -, hgrid, -, -⟩ := updateLargeBoard_inv lb l3 l2 l1 p lb' h
  rw [hgrid, List.get?_set, if_neg hj]

theorem updateLargeBoard_get?_eq (lb : LargeBoard) (l3 l2 l1 : Nat) (p : Player)
    (lb' : LargeBoard) (h : updateLargeBoard lb l3 l2 l1 p = some lb') :
    ∃ mb mb2, lb.grid.get? l3 = some mb ∧ updateMediumBoard mb l2 l1 p = some mb2 ∧
      lb'.grid.get? l3 = some mb2 := by
  obtain ⟨mb, mb2, hmb, hmed, hgrid, -, -⟩ := updateLargeBoard_inv lb l3 l2 l1 p lb' h
  refine ⟨mb, mb2, hmb, hmed, ?_⟩
  rw [hgrid, List.get?_set, if_pos rfl, hmb]
  rfl

theorem updateLargeBoard_owner_preserved (lb : LargeBoard) (l3 l2 l1 : Nat) (p : Player)
    (lb' : LargeBoard) (h : updateLargeBoard lb l3 l2 l1 p = some lb') (o : Owner)
    (ho : lb.owner = some o) : lb'.owner = some o := by
  obtain ⟨mb, mb2, -, -, -, hown, -⟩ := updateLargeBoard_inv lb l3 l2 l1 p lb' h
  rw [hown, ho]

/-- C4: a decided `owner` (X/O/DRAW) at any level — the root board,
any medium board, any small board — survives any accepted move
unchanged; `applyMove` keeps `board.owner ? board.owner : ...` at every
level. -/
theorem C4_owner_never_overwritten (S : GameState) (M : Move) (S' : GameState)
    (h : applyMove S M = .ok S') :
    (∀ o, S.board.owner = some o → S'.board.owner = some o) ∧
    (∀ i o m m', S.board.grid.get? i = some m → S'.board.grid.get? i = some m' →
      m.owner = some o → m'.owner = some o) ∧
    (∀ i j o sm sm', smallAt S.board i j = some sm → smallAt S'.board i j = some sm' →
      sm.owner = some o → sm'.owner = some o) := by
  obtain ⟨-, nb, tm, ts, hup, -, -, hS⟩ := applyMove_ok_inv S M S' h
  subst hS
  dsimp only
  refine ⟨?_, ?_, ?_⟩
  · intro o ho
    exact updateLargeBoard_owner_preserved _ _ _ _ _ _ hup o ho
  · intro i o m m' hm hm' ho
    by_cases hi : M.path.1 = i
    · subst hi
      obtain ⟨mb, mb2, hmb, hmed, hget⟩ := updateLargeBoard_get?_eq _ _ _ _ _ _ hup
      rw [hm] at hmb
      injection hmb with e
      subst e
      rw [hget] at hm'
      injection hm' with e
      subst e
      exact updateMediumBoard_owner_preserved _ _ _ _ _ hmed o ho
    · rw [updateLargeBoard_get?_ne _ _ _ _ _ _ hup i hi] at hm'
      rw [hm] at hm'
      injection hm' with e
      subst e
      exact ho
  · intro i j o sm sm' hsm hsm' ho
    unfold smallAt at hsm hsm'
    by_cases hi : M.path.1 = i
    · subst hi
      obtain ⟨mb, mb2, hmb, hmed, hget⟩ := updateLargeBoard_get?_eq _ _ _ _ _ _ hup
      rw [hmb] at hsm
      rw [hget] at hsm'
      dsimp at hsm hsm'
      by_cases hj : M.path.2.1 = j
      · subst hj
        obtain ⟨sb, hsb, hsb'⟩ := updateMediumBoard_get?_eq _ _ _ _ _ hmed
        rw [hsb] at hsm
        injection hsm with e
        subst e
        rw [hsb'] at hsm'
        injection hsm' with e
        subst e
        exact updateSmallBoard_owner_preserved _ _ _ o ho
      · rw [updateMediumBoard_get?_ne _ _ _ _ _ hmed j hj] at hsm'
        rw [hsm] at hsm'
        injection hsm' with e
        subst e
        exact ho
    · rw [updateLargeBoard_get?_ne _ _ _ _ _ _ hup i hi] at hsm'
      rw [hsm] at hsm'
      injection hsm' with e
      subst e
      exact ho

def ownedSmallBoard : SmallBoard :=
  { level := 1, owner := some Owner.X
    grid := [some Player.X, some Player.X, some Player.X, none, none, none, none, none, none] }

def ownedSmallBoardAfter : SmallBoard :=
  { level := 1, owner := some Owner.X
    grid := [some Player.X, some Player.X, some Player.X, some Player.O,
             none, none, none, none, none] }

/-- A state in which the small board at (0, 0) is already owned by X
and it is the turn of O, used to witness owner preservation. -/
def ownedState : GameState :=
  { board := { level := 3, owner := none
               grid := { level := 2, owner := none
                         grid := ownedSmallBoard :: List.replicate 8 emptySmallBoard } ::
                 List.replicate 8 emptyMediumBoard }
    currentPlayer := Player.O
    activeBoardPath := none
    winner := none }

def moveO : Move := { path := (0, 0, 3), player := Player.O }

def ownedStateAfter : GameState :=
  match applyMove ownedState moveO with
  | .ok s => s
  | .error _ => ownedState

theorem C4_owner_never_overwritten_witness :
    smallAt ownedStateAfter.board 0 0 = some ownedSmallBoardAfter ∧
    ownedSmallBoardAfter.owner = some Owner.X :=
  ⟨by decide,
    (C4_owner_never_overwritten ownedState moveO ownedStateAfter (by decide)).2.2 0 0 Owner.X
      ownedSmallBoard ownedSmallBoardAfter (by decide) (by decide) (by decide)⟩

theorem applyMove_cell_preserved (S : GameState) (M : Move) (S' : GameState)
    (h : applyMove S M = .ok S') (x y z : Nat) (q : Player)
    (hc : cellAt S x y z = some (some q)) : cellAt S' x y z = some (some q) := by
  obtain ⟨-, nb, tm, ts, hup, -, -, hS⟩ := applyMove_ok_inv S M S' h
  subst hS
  unfold cellAt smallAt at hc ⊢
  dsimp only
  by_cases hx : M.path.1 = x
  · subst hx
    obtain ⟨mb, mb2, hmb, hmed, hget⟩ := updateLargeBoard_get?_eq _ _ _ _ _ _ hup
    rw [hmb] at hc
    rw [hget]
    dsimp at hc ⊢
    by_cases hy : M.path.2.1 = y
    · subst hy
      obtain ⟨sb, hsb, hsb'⟩ := updateMediumBoard_get?_eq _ _ _ _ _ hmed
      rw [hsb] at hc
      rw [hsb']
      dsimp at hc ⊢
      exact updateSmallBoard_cell_preserved sb M.path.2.2 z S.currentPlayer q hc
    · rw [updateMediumBoard_get?_ne _ _ _ _ _ hmed y hy]
      exact hc
  · rw [updateLargeBoard_get?_ne _ _ _ _ _ _ hup x hx]
    exact hc

/-- C5: a cell holding X or O keeps that value across any accepted
move, and hence across any sequence of accepted moves. -/
theorem C5_cells_immutable (S : GameState) (ms : List Move) (S' : GameState)
    (h : applyMoves S ms = .ok S') (x y z : Nat) (q : Player)
    (hc : cellAt S x y z = some (some q)) : cellAt S' x y z = some (some q) := by
  induction ms generalizing S with
  | nil =>
      unfold applyMoves at h
      injection h with h
      subst h
      exact hc
  | cons m rest ih =>
      unfold applyMoves at h
      cases hap : applyMove S m with
      | ok s1 =>
          rw [hap] at h
          exact ih s1 h (applyMove_cell_preserved S m s1 hap x y z q hc)
      | error e =>
          rw [hap] at h
          cases h

def moveB : Move := { path := (0, 4, 0), player := Player.O }

def afterTwoMoves : GameState :=
  match applyMoves afterFirstMove [moveB] with
  | .ok s => s
  | .error _ => afterFirstMove

theorem C5_cells_immutable_witness :
    cellAt afterTwoMoves 0 0 4 = some (some Player.X) :=
  C5_cells_immutable afterFirstMove [moveB] afterTwoMoves (by decide) 0 0 4 Player.X (by decide)

/-- C6: in every reachable state, a non-null `activeBoardPath = (a, b)`
names a target small board (root index `a`, sub-index `b`) that is not
completely full, and hence the containing medium board at root index
`a` is not completely full (not all of its 81 leaf cells are
occupied); `applyMove` sets the constraint to `none` whenever the
target small board became full. -/
theorem C6_constraint_not_full (S : GameState) (hR : Reachable S) (a b : Nat)
    (hc : S.activeBoardPath = some (a, b)) :
    ∃ m sb, S.board.grid.get? a = some m ∧ m.grid.get? b = some sb ∧
      isBoardFull sb = false ∧ mediumFull m = false := by
  induction hR generalizing a b with
  | init => exact Option.noConfusion hc
  | step S0 M S1 hR0 hstep ih =>
      obtain ⟨-, nb, tm, ts, hup, htm, hts, hS⟩ := applyMove_ok_inv S0 M S1 hstep
      subst hS
      dsimp only at hc ⊢
      by_cases hf : isBoardFull ts
      · rw [if_pos hf] at hc
        cases hc
      · rw [if_neg hf] at hc
        injection hc with hc
        injection hc with ha hb
        subst ha
        subst hb
        refine ⟨tm, ts, htm, hts, by simpa using hf, ?_⟩
        have hmem : ts ∈ tm.grid := List.get?_mem hts
        cases hall : mediumFull tm with
        | false => rfl
        | true =>
            unfold mediumFull at hall
            exact absurd (List.all_eq_true.mp hall ts hmem) (by simpa using hf)

theorem C6_constraint_not_full_witness :
    afterFirstMove.activeBoardPath = some (0, 4) ∧
    (afterFirstMove.board.grid.get? 0).map mediumFull = some false := by
  refine ⟨by decide, ?_⟩
  obtain ⟨m, sb, h1, h2, h3, h4⟩ := C6_constraint_not_full afterFirstMove
    (Reachable.step createInitialGameState moveA afterFirstMove Reachable.init (by decide))
    0 4 (by decide)
  rw [h1]
  simp [h4]

/-! Lemmas about `List.findSome?`, used to characterize the
`for`-loop over `WIN_PATTERNS`. -/

theorem findSome?_eq_some_of_first {α β : Type} (f : α → Option β) :
    ∀ (l : List α) (i : Nat) (x : α) (b : β), l.get? i = some x → f x = some b →
      (∀ j, j < i → ∀ y, l.get? j = some y → f y = none) → l.findSome? f = some b := by
  intro l
  induction l with
  | nil => intro i x b h _ _; cases h
  | cons hd tl ih =>
      intro i x b hget hfx hprev
      cases i with
      | zero =>
          injection hget with e
          subst e
          rw [List.findSome?_cons, hfx]
      | succ n =>
          have hhd : f hd = none := hprev 0 (Nat.succ_pos n) hd rfl
          rw [List.findSome?_cons, hhd]
          exact ih n x b hget hfx (fun j hj y hy => hprev (j + 1) (Nat.succ_lt_succ hj) y hy)

theorem findSome?_eq_none_of_all {α β : Type} (f : α → Option β) :
    ∀ l : List α, (∀ x ∈ l, f x = none) → l.findSome? f = none := by
  intro l
  induction l with
  | nil => intro _; rfl
  | cons hd tl ih =>
      intro hall
      rw [List.findSome?_cons, hall hd (List.mem_cons_self hd tl)]
      exact ih (fun x hx => hall x (List.mem_cons_of_mem hd hx))

theorem exists_of_findSome?_eq_some {α β : Type} (f : α → Option β) :
    ∀ (l : List α) (b : β), l.findSome? f = some b → ∃ x ∈ l, f x = some b := by
  intro l
  induction l with
  | nil => intro b h; cases h
  | cons hd tl ih =>
      intro b h
      rw [List.findSome?_cons] at h
      cases hhd : f hd with
      | some c =>
          rw [hhd] at h
          injection h with e
          subst e
          exact ⟨hd, List.mem_cons_self hd tl, hhd⟩
      | none =>
          rw [hhd] at h
          obtain ⟨x, hx, hfx⟩ := ih b h
          exact ⟨x, List.mem_cons_of_mem hd hx, hfx⟩

theorem findSome?_isSome_of_mem {α β : Type} (f : α → Option β) :
    ∀ (l : List α) (x : α), x ∈ l → ∀ b : β, f x = some b →
      ∃ c, l.findSome? f = some c := by
  intro l
  induction l with
  | nil => intro x hx; cases hx
  | cons hd tl ih =>
      intro x hx b hfx
      rw [List.findSome?_cons]
      cases hhd : f hd with
      | some c => exact ⟨c, rfl⟩
      | none =>
          cases hx with
          | head => rw [hfx] at hhd; cases hhd
          | tail _ hmem => exact ih x hmem b hfx

theorem patternHit_eq_some_iff {T : Type} (grid : List T) (f : T → Winner)
    (p : Nat × Nat × Nat) (o : Owner) :
    patternHit grid f p = some o ↔ matchesPattern grid f p o := by
  unfold patternHit matchesPattern
  cases hA : ownerAt grid f p.1 with
  | none => simp
  | some oA =>
      dsimp only
      by_cases hcond : oA ≠ Owner.DRAW ∧ ownerAt grid f p.2.1 = some oA ∧
          ownerAt grid f p.2.2 = some oA
      · rw [if_pos hcond]
        constructor
        · intro h
          injection h with e
          subst e
          exact ⟨hcond.1, rfl, hcond.2.1, hcond.2.2⟩
        · rintro ⟨-, h1, -, -⟩
          injection h1 with e
          rw [e]
      · rw [if_neg hcond]
        constructor
        · intro h
          cases h
        · rintro ⟨hdraw, h1, h2, h3⟩
          injection h1 with e
          subst e
          exact absurd ⟨hdraw, h2, h3⟩ hcond

theorem patternHit_eq_none_of_no_match {T : Type} (grid : List T) (f : T → Winner)
    (p : Nat × Nat × Nat) (hno : ∀ o : Owner, ¬ matchesPattern grid f p o) :
    patternHit grid f p = none := by
  cases hq : patternHit grid f p with
  | none => rfl
  | some o => exact absurd ((patternHit_eq_some_iff grid f p o).mp hq) (hno o)

/-- C3: `checkWinner` is determined by the first pattern in the fixed
`WIN_PATTERNS` enumeration whose three positions carry one identical
non-none, non-DRAW owner; whenever some pattern matches, the result is
an owner that is X or O (never DRAW); and when no pattern matches, the result
is DRAW if all 9 children have a decided owner and `none` otherwise. -/
theorem C3_checkWinner_characterization {T : Type} (grid : List T) (f : T → Winner) :
    (∀ i p o, WIN_PATTERNS.get? i = some p → matchesPattern grid f p o →
      (∀ j q o', j < i → WIN_PATTERNS.get? j = some q → ¬ matchesPattern grid f q o') →
      checkWinner grid f = some o) ∧
    ((∃ p ∈ WIN_PATTERNS, ∃ o, matchesPattern grid f p o) →
      ∃ o, o ≠ Owner.DRAW ∧ checkWinner grid f = some o) ∧
    ((∀ p ∈ WIN_PATTERNS, ∀ o : Owner, ¬ matchesPattern grid f p o) →
      checkWinner grid f = if grid.all (fun t => f t ≠ none) then some Owner.DRAW else none) := by
  refine ⟨?_, ?_, ?_⟩
  · intro i p o hip hm hprev
    have hfound : WIN_PATTERNS.findSome? (patternHit grid f) = some o := by
      refine findSome?_eq_some_of_first (patternHit grid f) WIN_PATTERNS i p o hip
        ((patternHit_eq_some_iff grid f p o).mpr hm) ?_
      intro j hj q hq
      exact patternHit_eq_none_of_no_match grid f q (fun o' => hprev j q o' hj hq)
    unfold checkWinner
    rw [hfound]
  · rintro ⟨p, hp, o, hm⟩
    obtain ⟨c, hc⟩ := findSome?_isSome_of_mem (patternHit grid f) WIN_PATTERNS p hp o
      ((patternHit_eq_some_iff grid f p o).mpr hm)
    obtain ⟨q, -, hq⟩ := exists_of_findSome?_eq_some (patternHit grid f) WIN_PATTERNS c hc
    have hqm := (patternHit_eq_some_iff grid f q c).mp hq
    refine ⟨c, hqm.1, ?_⟩
    unfold checkWinner
    rw [hc]
  · intro hno
    have hfound : WIN_PATTERNS.findSome? (patternHit grid f) = none :=
      findSome?_eq_none_of_all (patternHit grid f) WIN_PATTERNS
        (fun p hp => patternHit_eq_none_of_no_match grid f p (hno p hp))
    unfold checkWinner
    rw [hfound]

theorem C3_checkWinner_characterization_witness :
    checkWinner
      ([some Owner.X, some Owner.X, some Owner.X, none, none, none, none, none, none] :
        List Winner) (fun w => w) = some Owner.X := by
  refine (C3_checkWinner_characterization _ _).1 0 (0, 1, 2) Owner.X (by decide) (by decide) ?_
  intro j q o' hj
  exact absurd hj (Nat.not_lt_zero j)

theorem get?_isSome_of_le_8 {α : Type} (l : List α) (h9 : l.length = 9) (i : Nat)
    (hi : i ≤ 8) : ∃ x, l.get? i = some x := by
  cases hg : l.get? i with
  | none =>
      rw [List.get?_eq_none] at hg
      omega
  | some x => exact ⟨x, rfl⟩

theorem updateLargeBoard_WF (lb : LargeBoard) (l3 l2 l1 : Nat) (p : Player)
    (lb' : LargeBoard) (h : updateLargeBoard lb l3 l2 l1 p = some lb') (hWF : WFBoard lb) :
    WFBoard lb' := by
  obtain ⟨mb, mb2, hmb, hmed, hgrid, -, -⟩ := updateLargeBoard_inv lb l3 l2 l1 p lb' h
  obtain ⟨sb, hsb, hgrid2, -, -⟩ := updateMediumBoard_inv mb l2 l1 p mb2 hmed
  obtain ⟨hlen, hch⟩ := hWF
  constructor
  · rw [hgrid]
    simp [hlen]
  · intro m hm
    rw [hgrid] at hm
    rcases List.mem_or_eq_of_mem_set hm with hmem | rfl
    · exact hch m hmem
    · have hmb_wf := hch mb (List.get?_mem hmb)
      constructor
      · rw [hgrid2]
        simp [hmb_wf.1]
      · intro sb' hsb'
        rw [hgrid2] at hsb'
        rcases List.mem_or_eq_of_mem_set hsb' with hmem2 | rfl
        · exact hmb_wf.2 sb' hmem2
        · rw [updateSmallBoard_length]
          exact hmb_wf.2 sb (List.get?_mem hsb)

/-- C10: neither `isValidMove` nor `applyMove` range-checks the path.
On a well-formed state (every grid has exactly 9 entries) with all
three path indices in [0,8], no grid access goes out of bounds (the
`TypeError` branches of the embedding are unreachable); but for the
move (9,0,0) from the initial state both functions crash with a
`TypeError` — the move is not rejected by a `false`/error result of
validation. -/
theorem C10_no_range_check :
    (∀ S M, WFState S → M.path.1 ≤ 8 → M.path.2.1 ≤ 8 → M.path.2.2 ≤ 8 →
      isValidMove S M ≠ none ∧ applyMove S M ≠ .error JsError.typeError) ∧
    isValidMove createInitialGameState { path := (9, 0, 0), player := Player.X } = none ∧
    applyMove createInitialGameState { path := (9, 0, 0), player := Player.X } =
      .error JsError.typeError := by
  refine ⟨?_, by decide, by decide⟩
  intro S M hWF h3 h2 h1
  obtain ⟨med, hg3⟩ := get?_isSome_of_le_8 S.board.grid hWF.1 M.path.1 h3
  have hmedlen : med.grid.length = 9 := (hWF.2 med (List.get?_mem hg3)).1
  obtain ⟨sm, hg2⟩ := get?_isSome_of_le_8 med.grid hmedlen M.path.2.1 h2
  have hvalid : isValidMove S M ≠ none := by
    unfold isValidMove
    by_cases hw : S.winner ≠ none
    · simp [hw]
    · by_cases hp : M.player ≠ S.currentPlayer
      · simp [hw, hp]
      · rw [if_neg hw, if_neg hp]
        dsimp only
        split
        · simp
        · rw [hg3]
          dsimp only
          rw [hg2]
          dsimp only
          split
          · simp
          · split <;> simp
  refine ⟨hvalid, ?_⟩
  cases hval : isValidMove S M with
  | none => exact absurd hval hvalid
  | some bv =>
      cases bv with
      | false =>
          unfold applyMove
          rw [hval]
          simp
      | true =>
          have hup : ∃ nb,
              updateLargeBoard S.board M.path.1 M.path.2.1 M.path.2.2 S.currentPlayer =
                some nb := by
            unfold updateLargeBoard
            rw [hg3]
            dsimp only
            unfold updateMediumBoard
            rw [hg2]
            dsimp only
            exact ⟨_, rfl⟩
          obtain ⟨nb, hup⟩ := hup
          have hWF2 : WFBoard nb :=
            updateLargeBoard_WF S.board M.path.1 M.path.2.1 M.path.2.2 S.currentPlayer nb
              hup hWF
          obtain ⟨tm, htm⟩ := get?_isSome_of_le_8 nb.grid hWF2.1 M.path.2.1 h2
          have htmlen : tm.grid.length = 9 := (hWF2.2 tm (List.get?_mem htm)).1
          obtain ⟨ts2, hts2⟩ := get?_isSome_of_le_8 tm.grid htmlen M.path.2.2 h1
          unfold applyMove
          rw [hval]
          dsimp only
          rw [hup]
          dsimp only
          rw [htm]
          dsimp only
          rw [hts2]
          dsimp only
          simp

theorem C10_no_range_check_witness :
    isValidMove createInitialGameState moveA ≠ none ∧
    applyMove createInitialGameState moveA ≠ .error JsError.typeError :=
  C10_no_range_check.1 createInitialGameState moveA (by decide) (by decide) (by decide)
    (by decide)
